import Mathlib

set_option maxRecDepth 8000

/-!
Shallow embedding of `uos_activpal/io/raw.py` (python-uos-activpal).

The embedding models the Python/NumPy semantics of the module:
bytes are `Nat` values (0..255 in well-formed inputs), a NumPy `uint8`
array is a `List Nat`, fallible operations (out-of-range indexing,
invalid `datetime` fields, the `assert` in `change_file_code`) return
`Option`, and NumPy's negative-index and silent-slice behaviours are
modelled explicitly where the source relies on them.
-/

namespace ActivPal

/-- A decoded output row: one (x, y, z) accelerometer sample. -/
abbrev Row := Nat × Nat × Nat

/-- Models the read `signals[row - 1]` in `extract_accelerometer_data`
(raw.py lines 238, 242).  `row` is a non-negative Python int, so
`row - 1` is `-1` exactly when `row = 0`; NumPy then selects the last
row of the buffer (and raises on an empty buffer, hence `none`). -/
def pyPrev (signals : List Row) (row : Nat) : Option Row :=
  if row = 0 then signals[signals.length - 1]? else signals[row - 1]?

/-- Models the tail test of `extract_accelerometer_data`
(raw.py lines 219-226) including Python's left-to-right short-circuit
evaluation: lookahead bytes past the current 3-byte group are read only
when the preceding conjuncts hold, and an out-of-range read raises
(`none`).  `rest` is the part of `body` after the current group, so
`body[i+3]` is `rest[0]`, ..., `body[i+7]` is `rest[4]`. -/
def tailCheck (datx : Bool) (x y z : Nat) (rest : List Nat) : Option Bool :=
  if datx then
    -- tail = (x == 116 and y == 97 and z == 105 and body[i + 3] == 108)
    if x = 116 ∧ y = 97 ∧ z = 105 then
      (rest[0]?).map (fun b3 => decide (b3 = 108))
    else some false
  else
    -- tail = (x == 0 and y == 0 and z > 0 and body[i+3] == 0 and
    --         body[i+4] == 0 and body[i+5] > 0 and body[i+6] > 0 and
    --         body[i+7] == 0)
    if x = 0 ∧ y = 0 ∧ 0 < z then
      match rest[0]? with
      | none => none
      | some b3 =>
        if b3 ≠ 0 then some false else
        match rest[1]? with
        | none => none
        | some b4 =>
          if b4 ≠ 0 then some false else
          match rest[2]? with
          | none => none
          | some b5 =>
            if b5 = 0 then some false else
            match rest[3]? with
            | none => none
            | some b6 =>
              if b6 = 0 then some false else
              match rest[4]? with
              | none => none
              | some b7 => some (decide (b7 = 0))
    else some false

/-- Models the inner duplicate loop of the compressed branch
(raw.py lines 247-249): `for r in range(nduplicates): signals[row] =
signals_prev; row += 1`.  A write at an index outside the pre-sized
buffer raises (`none`). -/
def emitDup (prev : Row) : Nat → List Row → Nat → Option (List Row × Nat)
  | 0, signals, row => some (signals, row)
  | n + 1, signals, row =>
    if row < signals.length then
      emitDup prev n (signals.set row prev) (row + 1)
    else none

/-- Models the main loop of `extract_accelerometer_data`
(raw.py lines 214-255).  The Python loop `for i in range(0, length, 3)`
reads `body[i]`, `body[i+1]`, `body[i+2]` each iteration; here the
not-yet-consumed suffix `body[i:]` is the first argument, so a ragged
final group (`length % 3 ≠ 0`) raises on reading `y` or `z` (`none`),
exactly as the NumPy reads do. -/
def decodeAux (datx adjust : Bool) : List Nat → List Row → Nat → Option (List Row)
  | [], signals, _ => some signals
  | [_], _, _ => none
  | [_, _], _, _ => none
  | x :: y :: z :: rest, signals, row =>
    match tailCheck datx x y z rest with
    | none => none
    | some true => some (signals.take row)   -- signals = signals[:row]; break
    | some false =>
      if x = 255 ∧ y = 255 ∧ z = 255 then    -- invalid (two54 or two55)
        match pyPrev signals row with
        | none => none
        | some prev =>
          if row < signals.length then
            decodeAux datx adjust rest (signals.set row prev) (row + 1)
          else none
      else if x = 0 ∧ y = 0 then             -- compressed
        match pyPrev signals row with
        | none => none
        | some prev =>
          match emitDup prev (if adjust then z + 1 else z) signals row with
          | none => none
          | some (signals', row') => decodeAux datx adjust rest signals' row'
      else                                   -- normal sample
        if row < signals.length then
          decodeAux datx adjust rest (signals.set row (x, y, z)) (row + 1)
        else none

/-- The function `extract_accelerometer_data` (raw.py lines 181-255): pre-sizes the
output buffer to `floor(length / 3) * 255` zero rows, then runs the
decode loop.  Note the source truncates to `row` only on the tail
branch; if the loop exhausts the input without a tail it returns the
whole pre-sized buffer. -/
def extract_accelerometer_data (body : List Nat) (firmware : Nat) (datx : Bool) :
    Option (List Row) :=
  let max_rows := body.length / 3 * 255
  let signals := List.replicate max_rows ((0, 0, 0) : Row)
  let adjust_nduplicates := decide (firmware < 218)
  decodeAux datx adjust_nduplicates body signals 0

/-- A Python `datetime.datetime` value (date and time fields only, as
used by `extract_metadata`). -/
structure PyDateTime where
  year : Nat
  month : Nat
  day : Nat
  hour : Nat
  minute : Nat
  second : Nat
deriving DecidableEq, Repr

/-- Gregorian leap-year rule, as used by Python's `datetime`. -/
def isLeapYear (y : Nat) : Bool :=
  y % 4 = 0 && (y % 100 ≠ 0 || y % 400 = 0)

/-- Days in a month of a given year (Python `calendar` rule). -/
def daysInMonth (y m : Nat) : Nat :=
  match m with
  | 1 => 31 | 2 => if isLeapYear y then 29 else 28
  | 3 => 31 | 4 => 30 | 5 => 31 | 6 => 30 | 7 => 31
  | 8 => 31 | 9 => 30 | 10 => 31 | 11 => 30 | 12 => 31
  | _ => 0

/-- Models `datetime.datetime(y, mo, d, h, mi, s)`: raises `ValueError`
(`none`) when a calendar field is out of range. -/
def mkDatetime (y mo d h mi s : Nat) : Option PyDateTime :=
  if 1 ≤ y ∧ y ≤ 9999 ∧ 1 ≤ mo ∧ mo ≤ 12 ∧ 1 ≤ d ∧ d ≤ daysInMonth y mo ∧
     h ≤ 23 ∧ mi ≤ 59 ∧ s ≤ 59 then
    some ⟨y, mo, d, h, mi, s⟩
  else none

/-- Days from year 1-01-01 to the given civil date (proleptic
Gregorian), used to give `datetime` subtraction a concrete meaning. -/
def daysFromCivil (y m d : Nat) : Nat :=
  let yp := y - 1
  let leapDays := yp / 4 - yp / 100 + yp / 400
  let monthDays := (List.range (m - 1)).foldl (fun acc i => acc + daysInMonth y (i + 1)) 0
  365 * yp + leapDays + monthDays + (d - 1)

/-- A `datetime` as seconds on a linear scale (for `stop - start`). -/
def dtToSeconds (t : PyDateTime) : Nat :=
  daysFromCivil t.year t.month t.day * 86400 + t.hour * 3600 + t.minute * 60 + t.second

/-- The `Meta` namedtuple of raw.py (lines 18-45).  `duration` is the
`timedelta` `stop_datetime - start_datetime`, in seconds.  The lenient
dictionary lookups yield `Option` fields (`None` when unmapped). -/
structure Meta where
  firmware : Nat
  bitdepth : Nat
  resolution : Option Nat
  hz : Nat
  axes : Option Nat
  start_datetime : PyDateTime
  stop_datetime : PyDateTime
  duration : Int
  start_condition : Option String
  stop_condition : Option String
  file_code : List Nat
  device_id : Nat
deriving DecidableEq, Repr

/-- Models `resolution_map` with `.get` (raw.py 137-138). -/
def resolution_map (b : Nat) : Option Nat :=
  match b with
  | 0 => some 2 | 1 => some 4 | 2 => some 8 | _ => none

/-- Models `axes_map` with `.get` (raw.py 142-143). -/
def axes_map (b : Nat) : Option Nat :=
  match b with
  | 0 => some 3 | 1 => some 1 | _ => none

/-- Models `start_condition_map` with `.get` (raw.py 154-155). -/
def start_condition_map (b : Nat) : Option String :=
  match b with
  | 0 => some "Trigger" | 1 => some "Immediately" | 2 => some "Set Time" | _ => none

/-- Models `stop_condition_map` with `.get` (raw.py 157-159). -/
def stop_condition_map (b : Nat) : Option String :=
  match b with
  | 0 => some "Memory Full" | 3 => some "Low Battery" | 64 => some "USB"
  | 128 => some "Programmed Time" | _ => none

/-- The file-code expression of raw.py line 161:
`''.join([(chr(x) if not x == 0 else '') for x in header[512:520]])`.
A NumPy slice past the end of the array silently yields fewer (or no)
elements, and every zero byte is individually dropped.  The resulting
string is represented by its list of character codes. -/
def file_code_of (header : List Nat) : List Nat :=
  ((header.drop 512).take 8).filter (fun x => x ≠ 0)

/-- The function `extract_metadata` (raw.py lines 103-171).  The source performs
bounds-checked scalar reads, in order, at indices 39, 17, 38, 35, 280,
261, 260, 259, 256, 257, 258, 267, 266, 265, 262, 263, 264, 268, 275,
10, 14, 40, 11, 12, 13 — the largest being 280 — so the read sequence
raises `IndexError` exactly when the header is shorter than 281 bytes,
and otherwise every read succeeds; that aggregate behaviour is the
upfront length guard here (the `Option` result is identical read by
read).  The `header[512:520]` slice in `file_code_of` never raises.
An invalid calendar date raises `ValueError` (`none`). -/
def extract_metadata (header : List Nat) : Option Meta :=
  if 281 ≤ header.length then
    let g := fun i => header.getD i 0
    let firmware := g 39 * 255 + g 17  -- Should it be 256?
    let bitDepth := if g 38 < 128 then 8 else 10
    let resolution_byte := if g 38 < 128 then g 38 else g 38 - 128
    let resolution := resolution_map resolution_byte
    let hz := g 35
    let axes := axes_map (g 280)
    match mkDatetime (g 261 + 2000) (g 260) (g 259) (g 256) (g 257) (g 258) with
    | none => none
    | some start_datetime =>
      match mkDatetime (g 267 + 2000) (g 266) (g 265) (g 262) (g 263) (g 264) with
      | none => none
      | some stop_datetime =>
        let duration : Int :=
          (dtToSeconds stop_datetime : Int) - (dtToSeconds start_datetime : Int)
        let start_condition := start_condition_map (g 268)
        let stop_condition := stop_condition_map (g 275)
        let file_code := file_code_of header
        let device_id := (g 10 % 10) * 100000 + g 14 * 10000 + g 40 * 4096 +
                         g 11 * 256 + g 12 * 16 + g 13
        some ⟨firmware, bitDepth, resolution, hz, axes, start_datetime, stop_datetime,
              duration, start_condition, stop_condition, file_code, device_id⟩
  else none

/-- The function `change_file_code` (raw.py lines 48-73), modelled on the byte
content of an existing file of length ≥ 520 (the `os.path.isfile`
check is existence of the byte list itself).  The `assert` on the code
length raises (`none`) for codes longer than 8; `new_code` is the
ASCII-encoded code as bytes, right-padded with NULs to 8 bytes and
written in place at offset 512. -/
def change_file_code (file : List Nat) (new_code : List Nat) : Option (List Nat) :=
  if new_code.length ≤ 8 then
    let new_bytes := new_code ++ List.replicate (8 - new_code.length) 0
    some (file.take 512 ++ new_bytes ++ file.drop 520)
  else none

/-- The timestamp index built by `ActivpalData.__init__`
(raw.py lines 326-328): `pd.date_range(start, periods=n, freq=Milli() *
(1000 / hz))`, i.e. timestamps `start + i * (1000 / hz) ms` for
`i < n`.  Times are in exact milliseconds (`ℚ`) from the epoch of
`dtToSeconds`; `1000 / hz` raises `ZeroDivisionError` for `hz = 0`. -/
def activpal_index (meta : Meta) (n : Nat) : Option (List ℚ) :=
  if meta.hz = 0 then none
  else some ((List.range n).map
    (fun (i : Nat) => (dtToSeconds meta.start_datetime : ℚ) * 1000 +
      (i : ℚ) * (1000 / (meta.hz : ℚ))))

/-! ### Concrete inputs used by counterexamples and witnesses -/

/-- A 281-byte header whose date fields decode to 2000-01-01 00:00:00:
all zeros except month/day bytes set to 1. -/
def hdr281 : List Nat :=
  ((((List.replicate 281 0).set 260 1).set 259 1).set 266 1).set 265 1

/-- The `Meta` value decoded from `hdr281`. -/
def meta281 : Meta :=
  ⟨0, 8, some 2, 0, some 3, ⟨2000, 1, 1, 0, 0, 0⟩, ⟨2000, 1, 1, 0, 0, 0⟩, 0,
   some "Trigger", some "Memory Full", [], 0⟩

/-- A body of `k` consecutive compressed groups `(0, 0, 255)` as bytes. -/
def groupRep : Nat → List Nat
  | 0 => []
  | k + 1 => 0 :: 0 :: 255 :: groupRep k

/-- Flattens a list of triplets into body bytes. -/
def tripletsToBytes : List Row → List Nat
  | [] => []
  | (x, y, z) :: ts => x :: y :: z :: tripletsToBytes ts

/-! ### A decidable safety predicate for the decode loop (claim C3) -/

/-- For a `.dat` body, whether the short-circuit tail lookahead
starting right after a group matching `x = 0, y = 0, z > 0` stays in
bounds (mirrors the read chain of `tailCheck`). -/
def datLookaheadSafe : List Nat → Bool
  | [] => false
  | b3 :: rest =>
    if b3 ≠ 0 then true else
    match rest with
    | [] => false
    | b4 :: rest2 =>
      if b4 ≠ 0 then true else
      match rest2 with
      | [] => false
      | b5 :: rest3 =>
        if b5 = 0 then true else
        match rest3 with
        | [] => false
        | b6 :: rest4 =>
          if b6 = 0 then true else !rest4.isEmpty

/-- Safety of a single 3-byte group given the bytes after it: the tail
lookahead cannot read out of bounds, and the group does not request
256 duplicates (`(0,0,255)` with `adjust`, i.e. firmware < 218). -/
def groupSafe (datx adjust : Bool) (x y z : Nat) (rest : List Nat) : Bool :=
  (!(adjust && (decide (x = 0) && decide (y = 0) && decide (z = 255)))) &&
  (if datx then
    (!(decide (x = 116) && decide (y = 97) && decide (z = 105))) || !rest.isEmpty
  else
    (!(decide (x = 0) && decide (y = 0) && decide (0 < z))) || datLookaheadSafe rest)

/-- Safety of a whole body: length divisible by 3 and every group safe. -/
def groupsSafe (datx adjust : Bool) : List Nat → Bool
  | [] => true
  | x :: y :: z :: rest => groupSafe datx adjust x y z rest && groupsSafe datx adjust rest
  | _ => false

/-! ### Helper lemmas about lists and the decode loop -/

lemma take_set_succ {α : Type _} : ∀ (l : List α) (i : Nat) (a : α), i < l.length →
    (l.set i a).take (i + 1) = l.take i ++ [a]
  | [], i, a, h => by simp at h
  | x :: xs, 0, a, _ => by simp
  | x :: xs, i + 1, a, h => by
    rw [List.set_cons_succ, List.take_succ_cons, List.take_succ_cons, List.cons_append]
    rw [take_set_succ xs i a (by simpa using h)]

lemma drop_set_ge {α : Type _} : ∀ (l : List α) (i j : Nat) (a : α), i < j →
    (l.set i a).drop j = l.drop j
  | [], _, _, _, _ => by simp
  | x :: xs, 0, j, a, h => by
    cases j with
    | zero => omega
    | succ j => simp
  | x :: xs, i + 1, j, a, h => by
    cases j with
    | zero => omega
    | succ j => simpa using drop_set_ge xs i j a (by omega)

lemma set_replicate_self {α : Type _} : ∀ (n i : Nat) (a : α),
    (List.replicate n a).set i a = List.replicate n a
  | 0, _, _ => by simp
  | n + 1, 0, a => by simp [List.replicate_succ]
  | n + 1, i + 1, a => by
    simp [List.replicate_succ, set_replicate_self n i a]

lemma pyPrev_pos (s : List Row) (row : Nat) (h : 1 ≤ row) :
    pyPrev s row = s[row - 1]? := by
  unfold pyPrev
  rw [if_neg (by omega)]

lemma pyPrev_replicate (n : Nat) (a : Row) (row : Nat) (hn : 0 < n) (hrow : row ≤ n) :
    pyPrev (List.replicate n a) row = some a := by
  unfold pyPrev
  split <;> simp [List.getElem?_replicate] <;> omega

lemma pyPrev_some (s : List Row) (row : Nat) (hlen : 0 < s.length) (hrow : row ≤ s.length) :
    ∃ prev, pyPrev s row = some prev := by
  unfold pyPrev
  split
  · exact ⟨_, List.getElem?_eq_getElem (by omega)⟩
  · exact ⟨_, List.getElem?_eq_getElem (by omega)⟩

lemma emitDup_length (prev : Row) :
    ∀ (n : Nat) (s : List Row) (row : Nat) (s' : List Row) (row' : Nat),
    emitDup prev n s row = some (s', row') → s'.length = s.length ∧ row' = row + n
  | 0, s, row, s', row', h => by
    simp [emitDup] at h
    simp [h.1, h.2]
  | n + 1, s, row, s', row', h => by
    rw [emitDup] at h
    split at h
    · have h2 := emitDup_length prev n _ _ _ _ h
      have h3 := h2.1
      rw [List.length_set] at h3
      exact ⟨h3, by omega⟩
    · exact absurd h (by simp)

lemma emitDup_eq (prev : Row) : ∀ (n : Nat) (s : List Row) (row : Nat), row + n ≤ s.length →
    emitDup prev n s row =
      some (s.take row ++ List.replicate n prev ++ s.drop (row + n), row + n)
  | 0, s, row, _ => by simp [emitDup, List.take_append_drop]
  | n + 1, s, row, h => by
    have hrow : row < s.length := by omega
    rw [emitDup, if_pos hrow,
        emitDup_eq prev n _ (row + 1) (by rw [List.length_set]; omega)]
    rw [take_set_succ s row prev hrow, drop_set_ge s row (row + 1 + n) prev (by omega)]
    have harr : row + 1 + n = row + (n + 1) := by omega
    simp [harr, List.replicate_succ, List.append_assoc]

lemma emitDup_none (prev : Row) : ∀ (n : Nat) (s : List Row) (row : Nat),
    s.length < row + n → 1 ≤ n → emitDup prev n s row = none
  | 0, _, _, _, hn => by omega
  | n + 1, s, row, h, _ => by
    rw [emitDup]
    split
    · exact emitDup_none prev n _ (row + 1) (by rw [List.length_set]; omega) (by omega)
    · rfl

lemma tailCheck_invalid (datx : Bool) (rest : List Nat) :
    tailCheck datx 255 255 255 rest = some false := by
  cases datx <;> simp [tailCheck]

/-- Step lemma for the compressed branch (raw.py lines 241-249): a group
`(0, 0, z)` whose tail test evaluates to false duplicates the row read
by `signals[row - 1]` `nduplicates` times, provided the duplicates fit
in the buffer. -/
lemma decodeAux_compressed (datx adjust : Bool) (z row : Nat) (rest : List Nat)
    (s : List Row) (prev : Row)
    (htail : tailCheck datx 0 0 z rest = some false)
    (hprev : pyPrev s row = some prev)
    (hcap : row + (if adjust then z + 1 else z) ≤ s.length) :
    decodeAux datx adjust (0 :: 0 :: z :: rest) s row =
      decodeAux datx adjust rest
        (s.take row ++ List.replicate (if adjust then z + 1 else z) prev ++
          s.drop (row + (if adjust then z + 1 else z)))
        (row + (if adjust then z + 1 else z)) := by
  rw [decodeAux, htail]
  dsimp only
  rw [if_neg (by simp), if_pos ⟨rfl, rfl⟩, hprev]
  dsimp only
  rw [emitDup_eq prev _ s row hcap]

/-- Step lemma for the invalid-sentinel branch (raw.py lines 228-240):
`(255, 255, 255)` duplicates the row read by `signals[row - 1]` once,
provided the buffer has room at index `row`. -/
lemma decodeAux_invalid (datx adjust : Bool) (row : Nat) (rest : List Nat)
    (s : List Row) (prev : Row)
    (hprev : pyPrev s row = some prev)
    (hcap : row < s.length) :
    decodeAux datx adjust (255 :: 255 :: 255 :: rest) s row =
      decodeAux datx adjust rest (s.set row prev) (row + 1) := by
  rw [decodeAux, tailCheck_invalid]
  dsimp only
  rw [if_pos ⟨rfl, rfl, rfl⟩, hprev]
  dsimp only
  rw [if_pos hcap]

/-- Step lemma for the normal-sample branch (raw.py lines 250-254). -/
lemma decodeAux_normal (datx adjust : Bool) (x y z row : Nat) (rest : List Nat)
    (s : List Row)
    (htail : tailCheck datx x y z rest = some false)
    (hinv : ¬(x = 255 ∧ y = 255 ∧ z = 255))
    (hcomp : ¬(x = 0 ∧ y = 0))
    (hcap : row < s.length) :
    decodeAux datx adjust (x :: y :: z :: rest) s row =
      decodeAux datx adjust rest (s.set row (x, y, z)) (row + 1) := by
  rw [decodeAux, htail]
  dsimp only
  rw [if_neg hinv, if_neg hcomp, if_pos hcap]

/-- Any buffer the decode loop returns is no longer than the buffer it
was started with: the tail branch truncates, every other branch
preserves the buffer length. -/
lemma decodeAux_length_le (datx adjust : Bool) :
    ∀ (fuel : Nat) (rem : List Nat) (s : List Row) (row : Nat) (out : List Row),
      rem.length ≤ fuel → decodeAux datx adjust rem s row = some out →
      out.length ≤ s.length
  | _, [], s, row, out, _, h => by
    rw [decodeAux] at h
    obtain rfl : s = out := by simpa using h
    exact Nat.le_refl _
  | _, [_], _, _, _, _, h => by rw [decodeAux] at h; simp at h
  | _, [_, _], _, _, _, _, h => by rw [decodeAux] at h; simp at h
  | 0, _ :: _ :: _ :: _, _, _, _, hlen, _ => by simp at hlen
  | fuel + 1, x :: y :: z :: rest, s, row, out, hlen, h => by
    rw [decodeAux] at h
    have hrest : rest.length ≤ fuel := by
      simp only [List.length_cons] at hlen; omega
    cases htc : tailCheck datx x y z rest with
    | none => rw [htc] at h; simp at h
    | some b =>
      rw [htc] at h
      cases b
      case true =>
        dsimp only at h
        obtain rfl : s.take row = out := by simpa using h
        rw [List.length_take]; omega
      case false =>
        dsimp only at h
        by_cases hinv : x = 255 ∧ y = 255 ∧ z = 255
        · rw [if_pos hinv] at h
          cases hp : pyPrev s row with
          | none => rw [hp] at h; simp at h
          | some prev =>
            rw [hp] at h; dsimp only at h
            by_cases hcap : row < s.length
            · rw [if_pos hcap] at h
              have h2 := decodeAux_length_le datx adjust fuel rest _ _ _ hrest h
              rwa [List.length_set] at h2
            · rw [if_neg hcap] at h; simp at h
        · rw [if_neg hinv] at h
          by_cases hcomp : x = 0 ∧ y = 0
          · rw [if_pos hcomp] at h
            cases hp : pyPrev s row with
            | none => rw [hp] at h; simp at h
            | some prev =>
              rw [hp] at h; dsimp only at h
              cases he : emitDup prev (if adjust then z + 1 else z) s row with
              | none => rw [he] at h; simp at h
              | some p =>
                obtain ⟨s', row'⟩ := p
                rw [he] at h; dsimp only at h
                have hlen2 := (emitDup_length _ _ _ _ _ _ he).1
                have h2 := decodeAux_length_le datx adjust fuel rest _ _ _ hrest h
                omega
          · rw [if_neg hcomp] at h
            by_cases hcap : row < s.length
            · rw [if_pos hcap] at h
              have h2 := decodeAux_length_le datx adjust fuel rest _ _ _ hrest h
              rwa [List.length_set] at h2
            · rw [if_neg hcap] at h; simp at h

/-- Under the lookahead-safety conditions the tail test never reads out
of bounds. -/
lemma tailCheck_isSome (datx : Bool) (x y z : Nat) (rest : List Nat)
    (hdatx : datx = true → (x = 116 ∧ y = 97 ∧ z = 105) → rest ≠ [])
    (hdat : datx = false → (x = 0 ∧ y = 0 ∧ 0 < z) → datLookaheadSafe rest = true) :
    (tailCheck datx x y z rest).isSome := by
  cases datx with
  | true =>
    unfold tailCheck
    rw [if_pos rfl]
    by_cases hxyz : x = 116 ∧ y = 97 ∧ z = 105
    · rw [if_pos hxyz]
      obtain ⟨r0, r, rfl⟩ : ∃ r0 r, rest = r0 :: r := by
        cases rest with
        | nil => exact absurd rfl (hdatx rfl hxyz)
        | cons r0 r => exact ⟨r0, r, rfl⟩
      simp
    · rw [if_neg hxyz]; rfl
  | false =>
    unfold tailCheck
    rw [if_neg (by simp)]
    by_cases hxyz : x = 0 ∧ y = 0 ∧ 0 < z
    · rw [if_pos hxyz]
      have hsafe := hdat rfl hxyz
      cases rest with
      | nil => simp [datLookaheadSafe] at hsafe
      | cons b3 r =>
        by_cases h3 : b3 = 0
        case neg => simp [h3]
        case pos =>
        subst h3
        unfold datLookaheadSafe at hsafe
        simp only [ne_eq, not_true_eq_false, if_neg (fun hc : ¬(0 = 0) => hc rfl)] at hsafe
        cases r with
        | nil => simp at hsafe
        | cons b4 r2 =>
          by_cases h4 : b4 = 0
          case neg => simp [h4]
          case pos =>
          subst h4
          simp only [ne_eq, not_true_eq_false, if_neg (fun hc : ¬(0 = 0) => hc rfl)] at hsafe
          cases r2 with
          | nil => simp at hsafe
          | cons b5 r3 =>
            by_cases h5 : b5 = 0
            case pos => subst h5; simp
            case neg =>
            simp only [if_neg h5] at hsafe
            cases r3 with
            | nil => simp at hsafe
            | cons b6 r4 =>
              by_cases h6 : b6 = 0
              case pos => subst h6; simp [h5]
              case neg =>
              simp only [if_neg h6] at hsafe
              cases r4 with
              | nil => simp at hsafe
              | cons b7 r5 => simp [h5, h6]
    · rw [if_neg hxyz]; rfl

/-- Totality of the decode loop under `groupsSafe`: with in-bounds
lookaheads, no 256-duplicate group, and the capacity invariant
`row + 255 * (groups remaining) ≤ buffer length`, every branch
succeeds. -/
lemma decodeAux_total (datx adjust : Bool) :
    ∀ (fuel : Nat) (rem : List Nat) (s : List Row) (row : Nat),
      rem.length ≤ fuel →
      groupsSafe datx adjust rem = true →
      (∀ b ∈ rem, b ≤ 255) →
      row + 255 * (rem.length / 3) ≤ s.length →
      (decodeAux datx adjust rem s row).isSome
  | _, [], s, row, _, _, _, _ => by simp [decodeAux]
  | _, [_], _, _, _, hsafe, _, _ => by simp [groupsSafe] at hsafe
  | _, [_, _], _, _, _, hsafe, _, _ => by simp [groupsSafe] at hsafe
  | 0, _ :: _ :: _ :: _, _, _, hlen, _, _, _ => by simp at hlen
  | fuel + 1, x :: y :: z :: rest, s, row, hlen, hsafe, hbytes, hcap => by
    rw [groupsSafe, Bool.and_eq_true] at hsafe
    obtain ⟨hg, hrest_safe⟩ := hsafe
    rw [groupSafe, Bool.and_eq_true, Bool.not_eq_true'] at hg
    obtain ⟨hg1, hg2⟩ := hg
    have hrest_len : rest.length ≤ fuel := by
      simp only [List.length_cons] at hlen; omega
    have hbytes' : ∀ b ∈ rest, b ≤ 255 := fun b hb => hbytes b (by simp [hb])
    have hzb : z ≤ 255 := hbytes z (by simp)
    have hcap' : row + 255 * (rest.length / 3) + 255 ≤ s.length := by
      simp only [List.length_cons] at hcap; omega
    have htc : (tailCheck datx x y z rest).isSome := by
      apply tailCheck_isSome
      · intro hd hxyz
        obtain ⟨rfl, rfl, rfl⟩ := hxyz
        rw [hd] at hg2
        simpa using hg2
      · intro hd hxyz
        obtain ⟨rfl, rfl, hzpos⟩ := hxyz
        rw [hd] at hg2
        simpa [hzpos] using hg2
    rw [Option.isSome_iff_exists] at htc
    obtain ⟨b, hb⟩ := htc
    rw [decodeAux, hb]
    cases b
    case true => simp
    case false =>
      dsimp only
      by_cases hinv : x = 255 ∧ y = 255 ∧ z = 255
      · rw [if_pos hinv]
        obtain ⟨prev, hp⟩ := pyPrev_some s row (by omega) (by omega)
        rw [hp]
        dsimp only
        rw [if_pos (show row < s.length by omega)]
        exact decodeAux_total datx adjust fuel rest _ (row + 1) hrest_len hrest_safe
          hbytes' (by rw [List.length_set]; omega)
      · rw [if_neg hinv]
        by_cases hcomp : x = 0 ∧ y = 0
        · obtain ⟨rfl, rfl⟩ := hcomp
          rw [if_pos ⟨rfl, rfl⟩]
          obtain ⟨prev, hp⟩ := pyPrev_some s row (by omega) (by omega)
          rw [hp]
          dsimp only
          have hndup : (if adjust then z + 1 else z) ≤ 255 := by
            cases adjust with
            | false => simpa using hzb
            | true =>
              have hz255 : z ≠ 255 := by simpa using hg1
              simp
              omega
          rw [emitDup_eq prev _ s row (by omega)]
          dsimp only
          apply decodeAux_total datx adjust fuel rest _ _ hrest_len hrest_safe hbytes'
          have hlen' : (s.take row ++ List.replicate (if adjust then z + 1 else z) prev ++
              s.drop (row + (if adjust then z + 1 else z))).length = s.length := by
            simp only [List.length_append, List.length_take, List.length_replicate,
              List.length_drop]
            omega
          rw [hlen']
          omega
        · rw [if_neg hcomp]
          rw [if_pos (show row < s.length by omega)]
          exact decodeAux_total datx adjust fuel rest _ (row + 1) hrest_len hrest_safe
            hbytes' (by rw [List.length_set]; omega)

lemma tripletsToBytes_length : ∀ (ts : List Row),
    (tripletsToBytes ts).length = 3 * ts.length
  | [] => rfl
  | (x, y, z) :: ts => by
    simp [tripletsToBytes, tripletsToBytes_length ts]
    omega

/-- Decoding a run of normal triplets followed by the `.datx` tail
marker appends exactly those triplets to the rows already produced and
truncates at the marker; bytes after the marker are never read. -/
lemma decodeAux_normal_run (adjust : Bool) :
    ∀ (ts : List Row) (tr : List Nat) (s : List Row) (row : Nat),
      (∀ t ∈ ts, ¬(t.1 = 0 ∧ t.2.1 = 0) ∧ t ≠ (255, 255, 255)) →
      List.Chain' (fun a b => ¬(a = (116, 97, 105) ∧ b.1 = 108)) ts →
      row + ts.length ≤ s.length →
      decodeAux true adjust (tripletsToBytes ts ++ 116 :: 97 :: 105 :: 108 :: tr) s row =
        some (s.take row ++ ts)
  | [], tr, s, row, _, _, _ => by
    show decodeAux true adjust (116 :: 97 :: 105 :: 108 :: tr) s row = _
    rw [decodeAux]
    have htail : tailCheck true 116 97 105 (108 :: tr) = some true := by
      simp [tailCheck]
    rw [htail]
    simp
  | (x, y, z) :: ts, tr, s, row, hnorm, hchain, hcap => by
    show decodeAux true adjust
        (x :: y :: z :: (tripletsToBytes ts ++ 116 :: 97 :: 105 :: 108 :: tr)) s row = _
    have hme := hnorm (x, y, z) (by simp)
    have hchain2 := List.chain'_cons'.mp hchain
    have htail : tailCheck true x y z
        (tripletsToBytes ts ++ 116 :: 97 :: 105 :: 108 :: tr) = some false := by
      unfold tailCheck
      rw [if_pos rfl]
      by_cases hxyz : x = 116 ∧ y = 97 ∧ z = 105
      · rw [if_pos hxyz]
        match ts, hchain2 with
        | [], _ => simp [tripletsToBytes]
        | (a, b, c) :: ts2, hchain2 =>
          have hnext := hchain2.1 (a, b, c) (by simp)
          have ha : a ≠ 108 := by
            intro hc
            exact hnext ⟨by simp [hxyz.1, hxyz.2.1, hxyz.2.2], hc⟩
          simp [tripletsToBytes, ha]
      · rw [if_neg hxyz]
    have hrow : row < s.length := by
      simp only [List.length_cons] at hcap; omega
    rw [decodeAux_normal true adjust x y z row _ s htail
        (fun hc => hme.2 (by simp [hc.1, hc.2.1, hc.2.2, Prod.ext_iff]))
        (fun hc => hme.1 ⟨hc.1, hc.2⟩) hrow]
    rw [decodeAux_normal_run adjust ts tr (s.set row (x, y, z)) (row + 1)
        (fun t ht => hnorm t (by simp [ht]))
        hchain2.2
        (by rw [List.length_set]; simp only [List.length_cons] at hcap; omega)]
    rw [take_set_succ s row (x, y, z) hrow]
    simp

/-- Overwriting a stretch of an all-`a` buffer with `a` leaves it
unchanged. -/
lemma replicate_patch {α : Type _} (N row n : Nat) (a : α) (h : row + n ≤ N) :
    (List.replicate N a).take row ++ List.replicate n a ++
      (List.replicate N a).drop (row + n) = List.replicate N a := by
  rw [List.take_replicate, List.drop_replicate, Nat.min_def, if_pos (by omega)]
  rw [← List.replicate_add, ← List.replicate_add]
  congr 1
  omega

lemma groupRep_length : ∀ (k : Nat), (groupRep k).length = 3 * k
  | 0 => rfl
  | k + 1 => by simp [groupRep, groupRep_length k]; omega

/-- Running the decode loop over `k` compressed `(0,0,255)` groups with
`adjust` set (firmware < 218) on an all-zero buffer emits `256 * k` zero
rows and leaves the buffer all zero. -/
lemma decodeAux_groupRep (k : Nat) :
    ∀ (row N : Nat) (tr : List Nat), row + 256 * k ≤ N →
      decodeAux true true (groupRep k ++ tr) (List.replicate N ((0, 0, 0) : Row)) row =
        decodeAux true true tr (List.replicate N ((0, 0, 0) : Row)) (row + 256 * k) := by
  induction k with
  | zero => intro row N tr _; simp [groupRep]
  | succ k ih =>
    intro row N tr hcap
    show decodeAux true true (0 :: 0 :: 255 :: (groupRep k ++ tr)) _ row = _
    have h256 : (if true then (255 : Nat) + 1 else 255) = 256 := by simp
    rw [decodeAux_compressed true true 255 row (groupRep k ++ tr)
        (List.replicate N ((0, 0, 0) : Row)) (0, 0, 0)
        (by simp [tailCheck])
        (pyPrev_replicate N (0, 0, 0) row (by omega) (by omega))
        (by simp; omega)]
    rw [h256, replicate_patch N row 256 ((0, 0, 0) : Row) (by omega)]
    rw [ih (row + 256) N tr (by omega)]
    congr 1
    omega

/-! ### Claim theorems -/

/-- C1 (amended): whenever `extract_accelerometer_data` returns a
result, its row count is at most `floor(len(body) / 3) * 255`.  The
original claim's second half — that no single 3-byte group can emit
more than 255 rows — is false: see `C1_counterexample`. -/
theorem C1_row_count_bound (body : List Nat) (firmware : Nat) (datx : Bool)
    (out : List Row)
    (h : extract_accelerometer_data body firmware datx = some out) :
    out.length ≤ body.length / 3 * 255 := by
  unfold extract_accelerometer_data at h
  dsimp only at h
  have h2 := decodeAux_length_le datx _ body.length body _ 0 out (Nat.le_refl _) h
  simpa using h2

/-- C1 witness: a concrete successful decode satisfying the bound. -/
theorem C1_row_count_bound_witness :
    ((1, 2, 3) :: List.replicate 254 ((0, 0, 0) : Row)).length ≤
      ([1, 2, 3] : List Nat).length / 3 * 255 :=
  C1_row_count_bound [1, 2, 3] 0 true ((1, 2, 3) :: List.replicate 254 ((0, 0, 0) : Row))
    (by decide)

/-- C1 counterexample: the single compressed group `(0, 0, 255)` with
firmware < 218 computes `nduplicates = 256` and attempts 256 writes
into the 255-row buffer, so the decoder raises IndexError (`none`)
instead of emitting at most 255 rows for that group. -/
theorem C1_counterexample :
    extract_accelerometer_data [0, 0, 255] 0 true = none := by
  have h0 : extract_accelerometer_data [0, 0, 255] 0 true =
      decodeAux true true [0, 0, 255] (List.replicate 255 ((0, 0, 0) : Row)) 0 := rfl
  rw [h0, decodeAux]
  rw [show tailCheck true 0 0 255 [] = some false from by simp [tailCheck]]
  dsimp only
  rw [if_neg (by simp), if_pos ⟨rfl, rfl⟩]
  rw [pyPrev_replicate 255 (0, 0, 0) 0 (by norm_num) (by norm_num)]
  dsimp only
  rw [emitDup_none (0, 0, 0) _ (List.replicate 255 ((0, 0, 0) : Row)) 0
    (by simp) (by simp)]

/-- C2 (amended): a compressed group `(0, 0, z)` reached with at least
one row already decoded and a failing tail test emits `z + 1` copies of
the previously decoded row `signals[row - 1]` when firmware < 218 and
exactly `z` copies when firmware ≥ 218 — provided the copies fit the
remaining buffer capacity (otherwise the decoder raises, see
`C2_counterexample`). -/
theorem C2_compressed_duplicates (datx : Bool) (fw z row : Nat) (rest : List Nat)
    (s : List Row) (prev : Row)
    (hrow : 1 ≤ row)
    (htail : tailCheck datx 0 0 z rest = some false)
    (hprev : s[row - 1]? = some prev)
    (hcap : row + (if fw < 218 then z + 1 else z) ≤ s.length) :
    decodeAux datx (decide (fw < 218)) (0 :: 0 :: z :: rest) s row =
      decodeAux datx (decide (fw < 218)) rest
        (s.take row ++ List.replicate (if fw < 218 then z + 1 else z) prev ++
          s.drop (row + (if fw < 218 then z + 1 else z)))
        (row + (if fw < 218 then z + 1 else z)) := by
  have heq : (if (decide (fw < 218)) = true then z + 1 else z) =
      (if fw < 218 then z + 1 else z) := by
    by_cases hf : fw < 218 <;> simp [hf]
  have h2 := decodeAux_compressed datx (decide (fw < 218)) z row rest s prev htail
    (by rw [pyPrev_pos s row hrow]; exact hprev) (by rw [heq]; exact hcap)
  rw [heq] at h2
  exact h2

/-- C2 witness: `[0,0,2]` after a carried row `(9,8,7)` with firmware 0
(< 218) duplicates it 3 times. -/
theorem C2_compressed_duplicates_witness :
    decodeAux true (decide ((0 : Nat) < 218)) [0, 0, 2]
        [(9, 8, 7), (0, 0, 0), (0, 0, 0), (0, 0, 0)] 1 =
      decodeAux true (decide ((0 : Nat) < 218)) []
        (([(9, 8, 7), (0, 0, 0), (0, 0, 0), (0, 0, 0)] : List Row).take 1 ++
          List.replicate (if (0 : Nat) < 218 then 2 + 1 else 2) (9, 8, 7) ++
          ([(9, 8, 7), (0, 0, 0), (0, 0, 0), (0, 0, 0)] : List Row).drop
            (1 + (if (0 : Nat) < 218 then 2 + 1 else 2)))
        (1 + (if (0 : Nat) < 218 then 2 + 1 else 2)) :=
  C2_compressed_duplicates true 0 2 1 [] [(9, 8, 7), (0, 0, 0), (0, 0, 0), (0, 0, 0)]
    (9, 8, 7) (by norm_num) (by decide) (by decide) (by decide)

/-- C2 counterexample: in `[0,0,254, 0,0,255]` with firmware 217, the
second group `(0,0,255)` is reached after 255 decoded rows with a
failing tail test, but instead of emitting its 256 duplicates the
decoder raises (`none`): the 510-row buffer has only 255 rows left. -/
theorem C2_counterexample :
    extract_accelerometer_data [0, 0, 254, 0, 0, 255] 217 true = none := by
  have h0 : extract_accelerometer_data [0, 0, 254, 0, 0, 255] 217 true =
      decodeAux true true (0 :: 0 :: 254 :: [0, 0, 255])
        (List.replicate 510 ((0, 0, 0) : Row)) 0 := rfl
  rw [h0]
  rw [decodeAux_compressed true true 254 0 [0, 0, 255]
    (List.replicate 510 ((0, 0, 0) : Row)) (0, 0, 0)
    (by simp [tailCheck])
    (pyPrev_replicate 510 (0, 0, 0) 0 (by norm_num) (by norm_num))
    (by simp)]
  rw [show (if (true : Bool) = true then 254 + 1 else 254) = 255 from by simp]
  rw [show (0 + 255 : Nat) = 255 from by norm_num]
  rw [replicate_patch 510 0 255 ((0, 0, 0) : Row) (by norm_num)]
  rw [decodeAux]
  rw [show tailCheck true 0 0 255 [] = some false from by simp [tailCheck]]
  dsimp only
  rw [if_neg (by simp), if_pos ⟨rfl, rfl⟩]
  rw [pyPrev_replicate 510 (0, 0, 0) 255 (by norm_num) (by norm_num)]
  dsimp only
  rw [emitDup_none (0, 0, 0) _ (List.replicate 510 ((0, 0, 0) : Row)) 255
    (by simp) (by simp)]

/-- C3 (amended): the decoder is total — returns a result instead of
raising — on every byte body that (a) has length divisible by 3, (b)
contains no group whose tail-pattern lookahead would read past the end
of the body, and (c) contains no compressed group `(0, 0, 255)` when
firmware < 218 (which would attempt 256 writes into a 255-row
allocation); this is the decidable predicate `groupsSafe`.  The
original unconditional claim is refuted by `C3_counterexample`. -/
theorem C3_decoder_total_on_safe_bodies (body : List Nat) (firmware : Nat) (datx : Bool)
    (hbytes : ∀ b ∈ body, b ≤ 255)
    (hsafe : groupsSafe datx (decide (firmware < 218)) body = true) :
    ∃ out, extract_accelerometer_data body firmware datx = some out := by
  rw [← Option.isSome_iff_exists]
  unfold extract_accelerometer_data
  dsimp only
  exact decodeAux_total datx _ body.length body _ 0 (Nat.le_refl _) hsafe hbytes
    (by simp only [List.length_replicate]; omega)

/-- C3 witness: a concrete safe body decodes successfully. -/
theorem C3_decoder_total_on_safe_bodies_witness :
    ∃ out, extract_accelerometer_data [1, 2, 3] 7 true = some out :=
  C3_decoder_total_on_safe_bodies [1, 2, 3] 7 true (by decide) (by decide)

/-- C3 counterexample: the body `[5]` — length not divisible by 3 —
makes the loop read `body[1]` out of bounds, raising IndexError
(`none`), so the decoder is not total over arbitrary byte input. -/
theorem C3_counterexample :
    extract_accelerometer_data [5] 0 true = none := by decide

/-- C4 (confirmed): a body of normal triplets (no compressed, invalid
or tail-matching group) followed by the `.datx` tail marker
`116,97,105,108` and arbitrary trailing bytes decodes, with
`datx = True`, to exactly those triplets; the trailing bytes are
never read. -/
theorem C4_normal_triplets_with_tail (firmware : Nat) (ts : List Row) (tr : List Nat)
    (hnorm : ∀ t ∈ ts, ¬(t.1 = 0 ∧ t.2.1 = 0) ∧ t ≠ (255, 255, 255))
    (hchain : List.Chain' (fun a b => ¬(a = (116, 97, 105) ∧ b.1 = 108)) ts) :
    extract_accelerometer_data (tripletsToBytes ts ++ 116 :: 97 :: 105 :: 108 :: tr)
      firmware true = some ts := by
  unfold extract_accelerometer_data
  dsimp only
  rw [decodeAux_normal_run _ ts tr _ 0 hnorm hchain
    (by simp only [List.length_replicate, List.length_append, List.length_cons,
          tripletsToBytes_length]
        omega)]
  simp

/-- C4 witness: two concrete triplets, a marker, and trailing junk. -/
theorem C4_normal_triplets_with_tail_witness :
    extract_accelerometer_data
        (tripletsToBytes [(1, 2, 3), (4, 5, 6)] ++ 116 :: 97 :: 105 :: 108 :: [9, 9])
        250 true = some [(1, 2, 3), (4, 5, 6)] :=
  C4_normal_triplets_with_tail 250 [(1, 2, 3), (4, 5, 6)] [9, 9] (by decide)
    (by rw [List.chain'_cons]; exact ⟨by decide, by simp⟩)

/-- C5 (amended): an invalid-sentinel group `(255, 255, 255)` reached
with at least one row already decoded emits exactly one copy of the
previously decoded row `signals[row - 1]` — provided the buffer is not
already full (otherwise the decoder raises, see `C5_counterexample`). -/
theorem C5_invalid_duplicates_once (datx adjust : Bool) (row : Nat) (rest : List Nat)
    (s : List Row) (prev : Row)
    (hrow : 1 ≤ row)
    (hprev : s[row - 1]? = some prev)
    (hcap : row < s.length) :
    decodeAux datx adjust (255 :: 255 :: 255 :: rest) s row =
      decodeAux datx adjust rest (s.set row prev) (row + 1) ∧
    (s.set row prev).take (row + 1) = s.take row ++ [prev] :=
  ⟨decodeAux_invalid datx adjust row rest s prev
      (by rw [pyPrev_pos s row hrow]; exact hprev) hcap,
   take_set_succ s row prev hcap⟩

/-- C5 witness: one concrete invalid-sentinel duplication. -/
theorem C5_invalid_duplicates_once_witness :
    decodeAux true true [255, 255, 255] [(9, 8, 7), (0, 0, 0)] 1 =
      decodeAux true true [] (([(9, 8, 7), (0, 0, 0)] : List Row).set 1 (9, 8, 7)) (1 + 1) ∧
    (([(9, 8, 7), (0, 0, 0)] : List Row).set 1 (9, 8, 7)).take (1 + 1) =
      ([(9, 8, 7), (0, 0, 0)] : List Row).take 1 ++ [(9, 8, 7)] :=
  C5_invalid_duplicates_once true true 1 [] [(9, 8, 7), (0, 0, 0)] (9, 8, 7)
    (by norm_num) (by decide) (by decide)

/-- C5 counterexample: after 255 compressed `(0, 0, 255)` groups with
firmware < 218 the 65280-row buffer is exactly full, and the following
`(255, 255, 255)` group — reached with 65280 rows decoded — raises
(`none`) instead of emitting one duplicate row. -/
theorem C5_counterexample :
    extract_accelerometer_data (groupRep 255 ++ [255, 255, 255]) 0 true = none := by
  have hlen : (groupRep 255 ++ [255, 255, 255]).length = 768 := by
    simp [groupRep_length]
  have h0 : extract_accelerometer_data (groupRep 255 ++ [255, 255, 255]) 0 true =
      decodeAux true true (groupRep 255 ++ [255, 255, 255])
        (List.replicate ((groupRep 255 ++ [255, 255, 255]).length / 3 * 255)
          ((0, 0, 0) : Row)) 0 := rfl
  rw [h0, hlen]
  rw [show (768 : Nat) / 3 * 255 = 65280 from by norm_num]
  rw [decodeAux_groupRep 255 0 65280 [255, 255, 255] (by norm_num)]
  rw [show (0 + 256 * 255 : Nat) = 65280 from by norm_num]
  rw [decodeAux, tailCheck_invalid]
  dsimp only
  rw [if_pos ⟨rfl, rfl, rfl⟩]
  rw [pyPrev_replicate 65280 (0, 0, 0) 65280 (by norm_num) (by norm_num)]
  dsimp only
  rw [if_neg (by rw [List.length_replicate]; omega)]

/-- C6 (amended): `extract_metadata` fails on every header shorter than
281 bytes — 281, not 1024/1023, being the threshold forced by its byte
reads (the largest scalar offset read is 280, and the file-code slice
`header[512:520]` is lenient); headers of length ≥ 281 can succeed,
see `C6_counterexample`. -/
theorem C6_short_header_fails (header : List Nat) (h : header.length < 281) :
    extract_metadata header = none := by
  unfold extract_metadata
  rw [if_neg (by omega)]

/-- C6 witness: a 100-byte header fails. -/
theorem C6_short_header_fails_witness :
    extract_metadata (List.replicate 100 0) = none :=
  C6_short_header_fails (List.replicate 100 0) (by simp)

/-- C6 counterexample: a 281-byte header — far shorter than the 1024
(`.datx`) / 1023 (`.dat`) the claim requires — decodes to a `Meta`
value instead of failing with a header-too-short error. -/
theorem C6_counterexample :
    hdr281.length = 281 ∧ hdr281.length < 1023 ∧
      extract_metadata hdr281 = some meta281 := by
  refine ⟨by decide, by decide, by decide⟩

/-- C7 (amended): for an existing file of at least 1024 bytes and an
ASCII code of at most 8 characters **containing no NUL character**,
writing the code with `change_file_code` and re-extracting the header's
file-code field returns exactly the original code, the padding NULs
being dropped.  For codes containing NUL the round trip fails because
extraction drops every zero byte: see `C7_counterexample`. -/
theorem C7_file_code_roundtrip (file code : List Nat)
    (hfile : 1024 ≤ file.length)
    (hlen : code.length ≤ 8)
    (hcode : ∀ c ∈ code, 0 < c ∧ c < 128) :
    ∃ newfile, change_file_code file code = some newfile ∧
      file_code_of newfile = code := by
  unfold change_file_code
  rw [if_pos hlen]
  dsimp only
  refine ⟨_, rfl, ?_⟩
  unfold file_code_of
  have h512 : (file.take 512).length = 512 := by
    rw [List.length_take]; omega
  rw [List.append_assoc, List.drop_append_eq_append_drop, h512]
  rw [List.drop_eq_nil_of_le (by omega : (file.take 512).length ≤ 512)]
  rw [show (512 - 512 : Nat) = 0 from rfl, List.drop_zero, List.nil_append]
  have h8 : (code ++ List.replicate (8 - code.length) 0).length = 8 := by
    simp only [List.length_append, List.length_replicate]; omega
  rw [List.take_append_eq_append_take, h8]
  rw [List.take_of_length_le (le_of_eq h8)]
  rw [show (8 - 8 : Nat) = 0 from rfl, List.take_zero, List.append_nil]
  rw [List.filter_append]
  rw [List.filter_eq_self.mpr (fun a ha => by
    have := (hcode a ha).1
    simp
    omega)]
  rw [List.filter_eq_nil_iff.mpr (fun a ha => by
    rw [List.eq_of_mem_replicate ha]
    simp)]
  rw [List.append_nil]

/-- C7 witness: writing `"TEST"` (bytes 84, 69, 83, 84) round-trips. -/
theorem C7_file_code_roundtrip_witness :
    ∃ newfile, change_file_code (List.replicate 1024 7) [84, 69, 83, 84] = some newfile ∧
      file_code_of newfile = [84, 69, 83, 84] :=
  C7_file_code_roundtrip (List.replicate 1024 7) [84, 69, 83, 84]
    (by simp) (by norm_num) (by decide)

/-- C7 counterexample: the one-character ASCII code `"\x00"` (byte 0)
does not round-trip: extraction drops every zero byte, returning the
empty code. -/
theorem C7_counterexample :
    (change_file_code (List.replicate 1024 65) [0]).map file_code_of = some [] ∧
      ([] : List Nat) ≠ [0] := by
  refine ⟨by decide, by decide⟩

/-- C8 (confirmed): whenever `extract_metadata` returns, the firmware
field equals `header[39] * 255 + header[17]` in exact integer
arithmetic — multiplier 255, no wrapping. -/
theorem C8_firmware_formula (header : List Nat) (m : Meta)
    (h : extract_metadata header = some m) :
    m.firmware = header.getD 39 0 * 255 + header.getD 17 0 := by
  unfold extract_metadata at h
  split at h
  case isFalse => simp at h
  case isTrue hlen =>
    dsimp only at h
    split at h
    case h_1 => simp at h
    case h_2 =>
      split at h
      case h_1 => simp at h
      case h_2 =>
        obtain rfl : _ = m := Option.some.inj h
        rfl

/-- C8 witness: the firmware formula evaluated on a concrete header. -/
theorem C8_firmware_formula_witness :
    meta281.firmware = hdr281.getD 39 0 * 255 + hdr281.getD 17 0 :=
  C8_firmware_formula hdr281 meta281 (by decide)

/-- C9 (confirmed): the synthesized timestamp of row `i` is
`start_datetime + i * (1000 / hz)` milliseconds exactly — in particular
`start_datetime + i * 50 ms` for `hz = 20` — and the index never
depends on `stop_datetime` (or `duration`). -/
theorem C9_timestamps (meta : Meta) (n i : Nat) (hhz : 0 < meta.hz) (hin : i < n) :
    ∃ l, activpal_index meta n = some l ∧
      l[i]? = some ((dtToSeconds meta.start_datetime : ℚ) * 1000 +
        (i : ℚ) * (1000 / (meta.hz : ℚ))) ∧
      (meta.hz = 20 →
        l[i]? = some ((dtToSeconds meta.start_datetime : ℚ) * 1000 + (i : ℚ) * 50)) ∧
      (∀ (stop' : PyDateTime) (dur' : Int),
        activpal_index { meta with stop_datetime := stop', duration := dur' } n =
          activpal_index meta n) := by
  have hidx : activpal_index meta n = some ((List.range n).map
      (fun (j : Nat) => (dtToSeconds meta.start_datetime : ℚ) * 1000 +
        (j : ℚ) * (1000 / (meta.hz : ℚ)))) := by
    unfold activpal_index
    rw [if_neg (by omega)]
  refine ⟨_, hidx, ?_, ?_, ?_⟩
  · rw [List.getElem?_map, List.getElem?_range hin]
    rfl
  · intro h20
    rw [List.getElem?_map, List.getElem?_range hin]
    rw [h20]
    norm_num
  · intro stop' dur'
    rfl

/-- C9 witness: concrete metadata with `hz = 20`, three rows, row 1. -/
theorem C9_timestamps_witness :
    ∃ l, activpal_index { meta281 with hz := 20 } 3 = some l ∧
      l[1]? = some ((dtToSeconds ({ meta281 with hz := 20 } : Meta).start_datetime : ℚ) *
        1000 + (1 : ℚ) * (1000 / (({ meta281 with hz := 20 } : Meta).hz : ℚ))) ∧
      (({ meta281 with hz := 20 } : Meta).hz = 20 →
        l[1]? = some ((dtToSeconds ({ meta281 with hz := 20 } : Meta).start_datetime : ℚ) *
          1000 + (1 : ℚ) * 50)) ∧
      (∀ (stop' : PyDateTime) (dur' : Int),
        activpal_index { { meta281 with hz := 20 } with
          stop_datetime := stop', duration := dur' } 3 =
          activpal_index { meta281 with hz := 20 } 3) :=
  C9_timestamps { meta281 with hz := 20 } 3 1 (by decide) (by norm_num)

/-- C10 (amended): when the first group is reached with no previously
decoded row, `signals[row - 1]` with `row = 0` selects the last row of
the zero-initialized buffer, so the emitted duplicates are all
`(0, 0, 0)` and (for `.datx` bodies) the decoder does not raise —
provided the requested duplicates fit the buffer (`firmware ≥ 218` or
`z ≤ 254`; a lone `(0, 0, 255)` group under firmware < 218 raises
instead, see `C10_counterexample`). -/
theorem C10_no_prior_row_zeros (z fw : Nat) (hz : z ≤ 255)
    (hover : 218 ≤ fw ∨ z ≤ 254) :
    extract_accelerometer_data [0, 0, z] fw true =
      some (List.replicate 255 ((0, 0, 0) : Row)) ∧
    ∀ (fw2 : Nat) (datx : Bool),
      extract_accelerometer_data [255, 255, 255] fw2 datx =
        some (List.replicate 255 ((0, 0, 0) : Row)) := by
  constructor
  · have h0 : extract_accelerometer_data [0, 0, z] fw true =
        decodeAux true (decide (fw < 218)) [0, 0, z]
          (List.replicate 255 ((0, 0, 0) : Row)) 0 := by
      unfold extract_accelerometer_data
      norm_num
    rw [h0]
    have hnd : (if (decide (fw < 218)) = true then z + 1 else z) ≤ 255 := by
      by_cases hf : fw < 218
      · rw [if_pos (decide_eq_true hf)]
        omega
      · rw [if_neg (by simp [hf])]
        exact hz
    rw [decodeAux_compressed true (decide (fw < 218)) z 0 []
      (List.replicate 255 ((0, 0, 0) : Row)) (0, 0, 0)
      (by simp [tailCheck])
      (pyPrev_replicate 255 (0, 0, 0) 0 (by norm_num) (by norm_num))
      (by simp only [List.length_replicate]; omega)]
    rw [replicate_patch 255 0 _ ((0, 0, 0) : Row) (by omega)]
    rw [decodeAux]
  · intro fw2 datx
    have h0 : extract_accelerometer_data [255, 255, 255] fw2 datx =
        decodeAux datx (decide (fw2 < 218)) [255, 255, 255]
          (List.replicate 255 ((0, 0, 0) : Row)) 0 := by
      unfold extract_accelerometer_data
      norm_num
    rw [h0]
    rw [decodeAux_invalid datx (decide (fw2 < 218)) 0 []
      (List.replicate 255 ((0, 0, 0) : Row)) (0, 0, 0)
      (pyPrev_replicate 255 (0, 0, 0) 0 (by norm_num) (by norm_num))
      (by rw [List.length_replicate]; omega)]
    rw [set_replicate_self]
    rw [decodeAux]

/-- C10 witness: concrete instances of both conjuncts. -/
theorem C10_no_prior_row_zeros_witness :
    extract_accelerometer_data [0, 0, 254] 0 true =
      some (List.replicate 255 ((0, 0, 0) : Row)) ∧
    ∀ (fw2 : Nat) (datx : Bool),
      extract_accelerometer_data [255, 255, 255] fw2 datx =
        some (List.replicate 255 ((0, 0, 0) : Row)) :=
  C10_no_prior_row_zeros 254 0 (by norm_num) (Or.inr (by norm_num))

/-- C10 counterexample: a first-group `(0, 0, 255)` under firmware 217
(< 218) — a compressed group with no prior row, not matching the
`.datx` tail — makes the decoder raise (`none`) rather than emit
zero-rows: `nduplicates = 256` exceeds the 255-row buffer. -/
theorem C10_counterexample :
    extract_accelerometer_data [0, 0, 255] 217 true = none := by
  have h0 : extract_accelerometer_data [0, 0, 255] 217 true =
      decodeAux true true [0, 0, 255] (List.replicate 255 ((0, 0, 0) : Row)) 0 := rfl
  rw [h0, decodeAux]
  rw [show tailCheck true 0 0 255 [] = some false from by simp [tailCheck]]
  dsimp only
  rw [if_neg (by simp), if_pos ⟨rfl, rfl⟩]
  rw [pyPrev_replicate 255 (0, 0, 0) 0 (by norm_num) (by norm_num)]
  dsimp only
  rw [emitDup_none (0, 0, 0) _ (List.replicate 255 ((0, 0, 0) : Row)) 0
    (by simp) (by simp)]

end ActivPal
